import Mathlib

/-!
Shallow embedding of the rendering engine of `src/PLedDisp/PLedDisp.{h,cpp}`
(ping-pong ball LED clock).  Pure data tables are copied verbatim from the
header; stateful member functions become explicit state-passing functions.
Machine integers are modelled as `Int`/`Nat` with explicit wrapping where the
C++ performs a narrowing conversion.  Buffer writes are modelled as an emitted
list of `(index, color)` pairs, in source order, so that in-bounds claims are
statements about every emitted index.
-/

namespace PLedDisp

/-- Colors as stored in the strip buffer.  The source stores `CRGB` values and
implicitly converts `CHSV` ones; the two constructors keep the provenance
apart (no claim depends on the HSV-to-RGB rasterisation). -/
inductive Color where
  | rgb (r g b : ℕ) : Color
  | hsv (h s v : ℕ) : Color
deriving DecidableEq

/-- `CRGB::Black` (0x000000). -/
def black : Color := Color.rgb 0 0 0
/-- `CRGB::White` (0xFFFFFF). -/
def white : Color := Color.rgb 255 255 255
/-- `CRGB::Red` (0xFF0000). -/
def red : Color := Color.rgb 255 0 0
/-- `CRGB::DarkOrange` (0xFF8C00). -/
def darkOrange : Color := Color.rgb 255 140 0
/-- `CRGB::Gray` (0x808080). -/
def gray : Color := Color.rgb 128 128 128
/-- `CRGB::Yellow` (0xFFFF00). -/
def yellow : Color := Color.rgb 255 255 0
/-- `CRGB::Peru` (0xCD853F). -/
def peru : Color := Color.rgb 205 133 63
/-- `CRGB::DarkGrey` (0xA9A9A9). -/
def darkGrey : Color := Color.rgb 169 169 169

/-- `NUM_LEDS = 128`. -/
def NUM_LEDS : ℕ := 128
/-- `REFRESH_RATE_HZ = 50`. -/
def REFRESH_RATE_HZ : ℕ := 50
/-- `FRAME_TIME_MS = (1000.0 / REFRESH_RATE_HZ)` truncated to `int`, i.e. 20. -/
def FRAME_TIME_MS : ℕ := 20
/-- FastLED `HUE_BLUE`. -/
def HUE_BLUE : ℕ := 160
/-- FastLED `HUE_RED`. -/
def HUE_RED : ℕ := 0

/-- Narrowing conversion of a C++ `int` to `uint8_t` (two's-complement wrap). -/
def intToU8 (n : ℤ) : ℕ := (n % 256).toNat

/-- The 7x20 lattice address table `led_address` from `PLedDisp.h`, rows 0-6.
The sentinel 999 marks positions that have no LED. -/
def led_address : List (List ℤ) :=
  [[999, 999, 999, 12, 13, 26, 27, 40, 41, 54, 55, 68, 69, 82, 83, 96, 97, 110, 111, 124],
   [999, 999, 1, 11, 14, 25, 28, 39, 42, 53, 56, 67, 70, 81, 84, 95, 98, 109, 112, 123],
   [999, 2, 10, 15, 24, 29, 38, 43, 52, 57, 66, 71, 80, 85, 94, 99, 108, 113, 122, 125],
   [0, 3, 9, 16, 23, 30, 37, 44, 51, 58, 65, 72, 79, 86, 93, 100, 107, 114, 121, 126],
   [4, 8, 17, 22, 31, 36, 45, 50, 59, 64, 73, 78, 87, 92, 101, 106, 115, 120, 127, 999],
   [5, 7, 18, 21, 32, 35, 46, 49, 60, 63, 74, 77, 88, 91, 102, 105, 116, 119, 999, 999],
   [6, 19, 20, 33, 34, 47, 48, 61, 62, 75, 76, 89, 90, 103, 104, 117, 118, 999, 999, 999]]

/-- Table lookup `led_address[r][c]`.  All proved-reachable accesses have
`0 ≤ r < 7` and `0 ≤ c < 20`; out-of-table positions default to the sentinel
(the theorems below show such accesses never occur on reachable states). -/
def ledAddress (r c : ℤ) : ℤ :=
  if 0 ≤ r ∧ 0 ≤ c then (led_address.getD r.toNat []).getD c.toNat 999 else 999

/-- Upright digit glyph table `digits` (per digit, the pixel offsets actually
used, i.e. the first `digits_len[num]` entries of each row). -/
def digits : List (List ℤ) :=
  [[7, 8, 10, 11, 14, 18, 22, 24],
   [14, 15, 16, 17, 18],
   [7, 8, 9, 11, 14, 16, 18, 24],
   [7, 9, 11, 14, 16, 18, 22, 24],
   [9, 10, 11, 16, 18, 22, 24],
   [7, 9, 10, 11, 14, 16, 18, 22],
   [7, 8, 9, 14, 15, 16, 18, 22],
   [7, 11, 14, 16, 17, 24],
   [7, 8, 9, 10, 11, 14, 16, 18, 22, 24],
   [7, 9, 10, 11, 14, 16, 17, 24]]

/-- Slanted digit glyph table `slant_digits` (the first `slant_digits_len[num]`
entries of each row). -/
def slant_digits : List (List ℤ) :=
  [[39, 42, 53, 52, 44, 45, 35, 32, 21, 31, 30, 38],
   [35, 45, 44, 52, 53],
   [39, 42, 53, 52, 44, 37, 30, 31, 21, 32, 35],
   [39, 42, 53, 52, 44, 37, 30, 45, 35, 32, 21],
   [39, 38, 30, 37, 44, 52, 53, 45, 35],
   [53, 42, 39, 38, 30, 37, 44, 45, 35, 32, 21],
   [53, 42, 39, 38, 30, 37, 44, 45, 35, 32, 21, 31],
   [39, 42, 53, 52, 44, 45, 35, 38],
   [53, 42, 39, 38, 30, 37, 44, 45, 35, 32, 21, 31, 52],
   [53, 42, 39, 38, 30, 37, 44, 45, 35, 32, 21, 52]]

/-- The 44-entry frame outline ordering `frame` from `PLedDisp.h`. -/
def frameList : List ℤ :=
  [68, 69, 82, 83, 96, 97, 110, 111, 124,
   123, 125, 126, 127, 119,
   118, 117, 104, 103, 90, 89, 76, 75, 62, 61, 48, 47, 34, 33, 20, 19, 6,
   5, 4, 0, 2, 1,
   12, 13, 26, 27, 40, 41, 54, 55]

/-- Foreground mode enum `ModeFG`. -/
inductive ModeFG where
  | None | Time | TimeRainbow | Cycle
deriving DecidableEq

/-- Background mode enum `ModeBG`. -/
inductive ModeBG where
  | None | SolidColor | ScrollingRainbow | Twinkle | Fireworks | Thunderstorm | Firepit
deriving DecidableEq

/-- Frame mode enum `ModeFR`. -/
inductive ModeFR where
  | None | SolidColor | Time
deriving DecidableEq

/-- `struct Foreground`. -/
structure Foreground where
  Mode : ModeFG
  Color : PLedDisp.Color
  is_slant : Bool
deriving DecidableEq

/-- `struct Background`. -/
structure Background where
  Mode : ModeBG
  Color : PLedDisp.Color
deriving DecidableEq

/-- `struct Frame`. -/
structure Frame where
  Mode : ModeFR
  Color : PLedDisp.Color
deriving DecidableEq

/-- `CHSV` triple as used for the shared `bg_colour` hue cursor. -/
structure CHSV where
  hue : ℕ
  sat : ℕ
  val : ℕ
deriving DecidableEq

/-- A buffer write: `(index, color)`, where index is the computed `int` used to
subscript `leds[]` in the source (before any bounds consideration). -/
abbrev Writes := List (ℤ × Color)

/-- The time snapshot `DateTime` fields used by the renderer. -/
structure Time where
  hour : ℕ
  minute : ℕ
  second : ℕ

/-- `PLedDisp::fg_palette`.  The guard in the source reads
`if (indx < 0 && indx >= NUM_LEDS) return CRGB::Black;` — translated verbatim.
The hue arithmetic `(bg_colour.hue + indx) % 256` is C `int` remainder followed
by the narrowing conversion to the `uint8_t` hue field of `CHSV`, which equals
the mathematical remainder `emod 256`. -/
def fg_palette (indx : ℤ) (fg : Foreground) (bgc : CHSV) : Color :=
  if indx < 0 ∧ indx ≥ (NUM_LEDS : ℤ) then black
  else if fg.Mode = ModeFG.TimeRainbow ∨ fg.Mode = ModeFG.Cycle then
    Color.hsv (((bgc.hue : ℤ) + indx) % 256).toNat bgc.sat bgc.val
  else fg.Color

/-- The pixel indices resolved by `PLedDisp::disp_digit` for digit `num` at
slot `offset`: the slanted branch shifts by `offset - 28`, applies the
`indx < 7 → indx++` correction and drops indices outside `[0,128)`; the
upright branch writes `digits[num][i] + offset` unguarded. -/
def digit_indices (num : ℕ) (slant : Bool) (offset : ℤ) : List ℤ :=
  if slant then
    (slant_digits.getD num []).filterMap (fun v =>
      let indx := v + offset - 28
      let indx := if indx < 7 then indx + 1 else indx
      if 0 ≤ indx ∧ indx < (NUM_LEDS : ℤ) then some indx else none)
  else
    (digits.getD num []).map (fun v => v + offset)

/-- `PLedDisp::disp_digit`: each resolved index is written with
`fg_palette(indx, fg)`. -/
def disp_digit (num : ℕ) (offset : ℤ) (fg : Foreground) (bgc : CHSV) : Writes :=
  (digit_indices num fg.is_slant offset).map (fun i => (i, fg_palette i fg bgc))

/-- `PLedDisp::disp_number`: leading-zero suppression, digits at slot offsets
14, 42, 70, 98. -/
def disp_number (d3 d2 d1 d0 : ℕ) (fg : Foreground) (bgc : CHSV) : Writes :=
  let nbr := d3 * 1000 + d2 * 100 + d1 * 10 + d0
  (if nbr ≥ 1000 then disp_digit d3 14 fg bgc else []) ++
  (if nbr ≥ 100 then disp_digit d2 42 fg bgc else []) ++
  (if nbr ≥ 10 then disp_digit d1 70 fg bgc else []) ++
  disp_digit d0 98 fg bgc

/-- `PLedDisp::fr_solidColor` writes every entry of `frame` that passes the
guard `frame[i] >= 0 && frame[i] <= 128` (the source compares with `<=`
against `sizeof(leds)/sizeof(leds[0])`). -/
def fr_solid_indices : List ℤ :=
  (List.range 44).filterMap (fun i =>
    let v := frameList.getD i 0
    if 0 ≤ v ∧ v ≤ (NUM_LEDS : ℤ) then some v else none)

/-- `fr_solidColor` writes. -/
def fr_solid_writes (c : Color) : Writes := fr_solid_indices.map (fun v => (v, c))

/-- The pixel indices written by `PLedDisp::fr_time` for a given seconds value:
`length = (seconds * 44.0) / 59` truncated to `int` (`seconds * 44 ≤ 2596` is
exact in `double` and the exact quotient is never within `2^-40` of an integer
it does not equal, so truncation equals the `Nat` floor division), clamped to
at most 44, then the first `length` entries of `frame` that pass the same
guard as `fr_solidColor`. -/
def fr_time_indices (sec : ℕ) : List ℤ :=
  let framelength : ℕ := 44
  let length0 := (sec * framelength) / 59
  let length := if length0 > framelength then framelength else length0
  (List.range length).filterMap (fun i =>
    let v := frameList.getD i 0
    if 0 ≤ v ∧ v ≤ (NUM_LEDS : ℤ) then some v else none)

/-- `fr_time` writes. -/
def fr_time_writes (sec : ℕ) (c : Color) : Writes :=
  (fr_time_indices sec).map (fun v => (v, c))

/-- The shared hue-cursor throttle body, duplicated verbatim in `bg_rainbow`
and `disp_time`: argument and result are the pair
`(bg_counter, bg_colour.hue)`. -/
def throttleStep (p : ℕ × ℕ) : ℕ × ℕ :=
  if p.1 < REFRESH_RATE_HZ / 4 then (p.1 + 1, p.2) else (0, (p.2 + 1) % 256)

/-- `MAX_TWINKLES = 8`. -/
def MAX_TWINKLES : ℕ := 8
/-- `MAX_RAINDROPS = 16`. -/
def MAX_RAINDROPS : ℕ := 16
/-- `MAX_FIREWORKS = 5`. -/
def MAX_FIREWORKS : ℕ := 5

/-- `struct twinkle_t` (member initializers `pos = -1`, `stage = 0`). -/
structure Twinkle where
  pos : ℤ := -1
  stage : ℤ := 0

/-- `struct rain_t`.  `prev_pos` is declared `int prev_pos[6]` with no
initializer; it is modelled as a total function on ℕ so that the source's
write `prev_pos[stage]` at `stage = 6` (one past the declared array) lands at
key 6, which no read ever consults.  The initial contents of `prev_pos` are
indeterminate in C++ and are therefore a parameter of the initial state. -/
structure Raindrop where
  pos : ℤ := -1
  stage : ℤ := 0
  lightning : Bool := false
  prev_pos : ℕ → ℤ

/-- `struct firework_t` (`hue` is a `char` assigned from `random8()`; it is
re-read only through the `uint8_t` hue field of `CHSV`, so the stored byte is
modelled directly as its value in `[0,256)`). -/
structure Firework where
  pos : ℤ := -1
  direction : ℤ := 0
  stage : ℤ := 0
  hue : ℕ := 0
  height_offset : ℤ := 0

/-- Random draws consumed by one `bg_twinkle` call: `random8()` and
`random(NUM_LEDS)`. -/
structure TwinkleRand where
  roll : Fin 256
  pos : Fin 128

/-- Random draws consumed by one `bg_rain` call: spawn roll `random8()`,
spawn column `random8(3,21)` (giving `3 + spawnPos`), lightning draw
`random8(0,20)`, per-column sky brightness `random8(64,128)`, and per-slot
horizontal drifts `random8(0,2)` (six per lightning strike, one per falling
raindrop). -/
structure RainRand where
  roll : Fin 256
  spawnPos : Fin 18
  lightRoll : Fin 20
  skyV : ℕ → Fin 64
  drift : Fin 16 → ℕ → Fin 2
  rainDrift : Fin 16 → Fin 2

/-- Random draws consumed by one `bg_firework` call: spawn roll `random8()`,
base position `random8(3,14)` (giving `3 + pos`), direction `random8(0,2)`,
hue `random8()`, height offset `random8(0,2)`. -/
structure FireworkRand where
  roll : Fin 256
  pos : Fin 11
  dir : Fin 2
  hue : Fin 256
  ho : Fin 2

/-- Random draws consumed by one `bg_firepit` call: per-(level, column) hue
jitter `random8(8)` and brightness `random8(192-(6-level)*64, 255-(6-level)*64)`
(a width-63 band, giving `low + bright level i`). -/
structure FirepitRand where
  hueJit : ℕ → ℕ → Fin 8
  bright : ℕ → ℕ → Fin 63

/-- First pool slot whose `pos` equals the free sentinel `-1`
(the `empty_slot` scan with `break`). -/
def firstFree {n : ℕ} (pool : Fin n → ℤ) : Option (Fin n) :=
  (List.finRange n).find? (fun i => decide (pool i = -1))

/-- The spawn phase of `bg_twinkle`: `if (random8() < 96 && empty_slot != -1)`
claims the first free slot at a random position with stage 16. -/
def twSpawn (pool : Fin 8 → Twinkle) (r : TwinkleRand) : Fin 8 → Twinkle :=
  if (r.roll : ℕ) < 96 then
    match firstFree (fun i => (pool i).pos) with
    | some j => Function.update pool j { pos := ((r.pos : ℕ) : ℤ), stage := 16 }
    | none => pool
  else pool

/-- The advance of one twinkle slot: an active slot renders white/gray at
brightness `8 * stage`, decrements its stage and is freed (position −1) when
the stage hits 0. -/
def twAdvSlot (t : Twinkle) : Twinkle × Writes :=
  if t.pos ≠ -1 ∧ t.stage > 0 then
    let brightness := 8 * t.stage
    let c := Color.rgb (intToU8 brightness) (intToU8 brightness) (intToU8 brightness)
    let stage1 := t.stage - 1
    ({ pos := if stage1 = 0 then -1 else t.pos, stage := stage1 }, [(t.pos, c)])
  else (t, [])

/-- `PLedDisp::bg_twinkle`: spawn, then per-slot advance.  Returns the new
pool and the list of buffer writes in source order. -/
def bg_twinkle (pool : Fin 8 → Twinkle) (r : TwinkleRand) :
    (Fin 8 → Twinkle) × Writes :=
  (fun i => (twAdvSlot (twSpawn pool r i)).1,
   (List.finRange 8).flatMap (fun i => (twAdvSlot (twSpawn pool r i)).2))

/-- The column clamp `x = (x >= 0 && x < 20) ? x : 0;` used by `bg_rain`. -/
def clampCol (x : ℤ) : ℤ := if 0 ≤ x ∧ x < 20 then x else 0

/-- The inner `for (j = 1; j <= 6; j++)` of the lightning-strike branch of
`bg_rain`: carries the running column `x`, updates `prev_pos[j-1]` and emits a
yellow write only when `led_address[j][x]` passes the `[0,128)` guard. -/
def strikeAux (drift : ℕ → Fin 2) :
    List ℕ → ℤ → (ℕ → ℤ) → ((ℕ → ℤ) × Writes)
  | [], _, pp => (pp, [])
  | j :: rest, x, pp =>
      let x2 := clampCol (x - ((drift j : ℕ) : ℤ))
      let indx := ledAddress (j : ℤ) x2
      if 0 ≤ indx ∧ indx < (NUM_LEDS : ℤ) then
        let res := strikeAux drift rest x2 (Function.update pp (j - 1) indx)
        (res.1, (indx, yellow) :: res.2)
      else
        let res := strikeAux drift rest x2 pp
        (res.1, res.2)

/-- The three-way branch in the body of the second `for` loop of `bg_rain`,
for an active slot: lightning strike (stage 1), lightning hold (stages 2–6,
replaying all six stored `prev_pos` entries unguarded), or plain rain descent
(guarded write, `stage` forced to 6 when the lattice cell is invalid). -/
def rainStep1 (driftL : ℕ → Fin 2) (driftR : Fin 2) (d : Raindrop) :
    Raindrop × Writes :=
  if d.lightning ∧ d.stage = 1 then
    let res := strikeAux driftL [1, 2, 3, 4, 5, 6] d.pos d.prev_pos
    ({ d with prev_pos := res.1 }, res.2)
  else if d.lightning ∧ 1 < d.stage ∧ d.stage < 7 then
    (d, (List.range 6).map (fun j => (d.prev_pos j, yellow)))
  else
    let x := clampCol (d.prev_pos (d.stage - 1).toNat - ((driftR : ℕ) : ℤ))
    let pp1 := Function.update d.prev_pos d.stage.toNat x
    let indx := ledAddress d.stage x
    if 0 ≤ indx ∧ indx < (NUM_LEDS : ℤ) then
      ({ d with prev_pos := pp1 }, [(indx, Color.hsv HUE_BLUE 255 128)])
    else
      ({ d with prev_pos := pp1, stage := 6 }, [])

/-- Advance of one raindrop slot (the body of the second `for` loop of
`bg_rain`), given the slot's drift draws: the three-way branch, then
`stage++` with the two freeing cases (the lightning one clearing its stored
path to black, again unguarded). -/
def rainAdvSlot (driftL : ℕ → Fin 2) (driftR : Fin 2) (d : Raindrop) :
    Raindrop × Writes :=
  if d.pos ≠ -1 ∧ d.stage > 0 then
    let step1 := rainStep1 driftL driftR d
    let d2 : Raindrop := { step1.1 with stage := step1.1.stage + 1 }
    if d2.stage = 7 ∧ d2.lightning then
      ({ d2 with pos := -1 },
       step1.2 ++ (List.range 6).map (fun j => (d2.prev_pos j, black)))
    else if d2.stage = 7 ∧ ¬ d2.lightning then
      ({ d2 with pos := -1 }, step1.2)
    else (d2, step1.2)
  else (d, [])

/-- The static sky rows of `bg_rain` (rows 0 and 1 of the lattice). -/
def rainSky (r : RainRand) : Writes :=
  (List.range' 3 17).map (fun (i : ℕ) => (ledAddress 0 (i : ℤ), gray)) ++
  (List.range' 2 18).map (fun (i : ℕ) =>
    (ledAddress 1 (i : ℤ), Color.hsv 0 0 (64 + (r.skyV i : ℕ))))

/-- The spawn phase of `bg_rain`: `random8() < 200` claims the first free
slot at a random top-row column in `[3,20]`, stage 1, with a 1-in-20
lightning flag (`random8(0,20)/19`), recording the start column in
`prev_pos[0]`. -/
def rainSpawn (pool : Fin 16 → Raindrop) (r : RainRand) : Fin 16 → Raindrop :=
  if (r.roll : ℕ) < 200 then
    match firstFree (fun i => (pool i).pos) with
    | some j =>
        let pos : ℤ := 3 + (r.spawnPos : ℕ)
        Function.update pool j
          { pos := pos, stage := 1,
            lightning := decide ((r.lightRoll : ℕ) / 19 ≠ 0),
            prev_pos := Function.update (pool j).prev_pos 0 pos }
    | none => pool
  else pool

/-- `PLedDisp::bg_rain`: static sky rows, spawn, then per-slot advance. -/
def bg_rain (pool : Fin 16 → Raindrop) (r : RainRand) :
    (Fin 16 → Raindrop) × Writes :=
  (fun i => (rainAdvSlot (r.drift i) (r.rainDrift i) (rainSpawn pool r i)).1,
   rainSky r ++ (List.finRange 16).flatMap
     (fun i => (rainAdvSlot (r.drift i) (r.rainDrift i) (rainSpawn pool r i)).2))

/-- The buffer writes of one active firework slot (the staged choreography of
`bg_firework`, stages 24 down to 1). -/
def fwSlotWrites (f : Firework) : Writes :=
  let y : ℤ := 2 + f.height_offset
  let x : ℤ := f.pos + 4 * f.direction
  if f.stage = 24 then
    [(ledAddress 6 f.pos, white)]
  else if f.stage ≥ 20 + f.height_offset then
    let level : ℤ := 6 - (24 - f.stage)
    [(ledAddress level (f.pos + (6 - level) * f.direction), white),
     (ledAddress (level + 1) (f.pos + (6 - level + 1) * f.direction), black)]
  else if f.stage = 18 ∨ f.stage = 17 then
    [(ledAddress y x, black),
     (ledAddress (y - 1) (x + 1), Color.hsv f.hue 255 255),
     (ledAddress y (x + 1), Color.hsv f.hue 255 255),
     (ledAddress (y + 1) x, Color.hsv f.hue 255 255),
     (ledAddress (y + 1) (x - 1), Color.hsv f.hue 255 255),
     (ledAddress y (x - 1), Color.hsv f.hue 255 255),
     (ledAddress (y - 1) x, Color.hsv f.hue 255 255)]
  else if f.stage = 16 then
    [(ledAddress y x, black),
     (ledAddress (y - 1) (x + 1), black),
     (ledAddress y (x + 1), black),
     (ledAddress (y + 1) x, black),
     (ledAddress (y + 1) (x - 1), black),
     (ledAddress y (x - 1), black),
     (ledAddress (y - 1) x, black),
     (ledAddress (y - 2) (x + 2), Color.hsv f.hue 255 255),
     (ledAddress y (x + 2), Color.hsv f.hue 255 255),
     (ledAddress (y + 2) x, Color.hsv f.hue 255 255),
     (ledAddress (y + 2) (x - 2), Color.hsv f.hue 255 255),
     (ledAddress y (x - 2), Color.hsv f.hue 255 255),
     (ledAddress (y - 2) x, Color.hsv f.hue 255 255)]
  else if f.stage > 0 then
    let b := intToU8 (16 * f.stage)
    [(ledAddress (y - 2) (x + 2), Color.hsv f.hue 255 b),
     (ledAddress y (x + 2), Color.hsv f.hue 255 b),
     (ledAddress (y + 2) x, Color.hsv f.hue 255 b),
     (ledAddress (y + 2) (x - 2), Color.hsv f.hue 255 b),
     (ledAddress y (x - 2), Color.hsv f.hue 255 b),
     (ledAddress (y - 2) x, Color.hsv f.hue 255 b)]
  else []

/-- The spawn phase of `bg_firework`: `random8() < 24` claims the first free
slot with `START_STAGE = 24` and random attributes. -/
def fwSpawn (pool : Fin 5 → Firework) (r : FireworkRand) : Fin 5 → Firework :=
  if (r.roll : ℕ) < 24 then
    match firstFree (fun i => (pool i).pos) with
    | some j =>
        Function.update pool j
          { pos := 3 + ((r.pos : ℕ) : ℤ), stage := 24,
            direction := ((r.dir : ℕ) : ℤ), hue := (r.hue : ℕ),
            height_offset := ((r.ho : ℕ) : ℤ) }
    | none => pool
  else pool

/-- The advance of one firework slot: an active slot emits its stage's
writes, decrements the stage and is freed (position −1) when the stage hits
0. -/
def fwAdvSlot (f : Firework) : Firework × Writes :=
  if f.pos ≠ -1 ∧ f.stage > 0 then
    let stage1 := f.stage - 1
    ({ f with stage := stage1, pos := if stage1 = 0 then -1 else f.pos },
     fwSlotWrites f)
  else (f, [])

/-- `PLedDisp::bg_firework`: spawn, then per-slot advance. -/
def bg_firework (pool : Fin 5 → Firework) (r : FireworkRand) :
    (Fin 5 → Firework) × Writes :=
  (fun i => (fwAdvSlot (fwSpawn pool r i)).1,
   (List.finRange 5).flatMap (fun i => (fwAdvSlot (fwSpawn pool r i)).2))

/-- `PLedDisp::bg_firepit`: stateless re-randomisation of lattice levels 6
down to 3, columns `0 ≤ i < 17 + (6 - level)`. -/
def bg_firepit (r : FirepitRand) : Writes :=
  ([6, 5, 4, 3] : List ℕ).flatMap (fun level =>
    (List.range (17 + (6 - level))).map (fun (i : ℕ) =>
      (ledAddress (level : ℤ) (i : ℤ),
       Color.hsv (HUE_RED + (r.hueJit level i : ℕ)) 255
         (192 - (6 - level) * 64 + (r.bright level i : ℕ)))))

/-- The mutable state of a `PLedDisp` object that the render path touches.
`currentMillis` is assigned from `millis()` at the top of every call and only
read inside that call, so it is passed as the `t` argument instead of being
carried. -/
structure PState where
  leds : ℕ → Color
  Fg : Foreground
  Bg : Background
  Fr : Frame
  bg_colour : CHSV
  ErrorIndicator : Fin 4 → ℕ
  previousMillis : ℕ
  cycle_counter : ℕ
  bg_counter : ℕ
  twinkles : Fin 8 → Twinkle
  raindrops : Fin 16 → Raindrop
  fireworks : Fin 5 → Firework

/-- `ErrorIndicatorAdr = {118, 119, 127, 126}`. -/
def ErrorIndicatorAdr : Fin 4 → ℕ
  | 0 => 118
  | 1 => 119
  | 2 => 127
  | 3 => 126

/-- `PLedDisp::setWarning`: guarded by `indicator < 4`, stores
`(statusOk == false) * Level`. -/
def setWarning (st : PState) (indicator : ℕ) (statusOk : Bool) (level : ℕ) :
    PState :=
  if h : indicator < 4 then
    let v := if statusOk then 0 else level
    { st with ErrorIndicator := Function.update st.ErrorIndicator ⟨indicator, h⟩ v }
  else st

/-- One iteration of the warning-overlay loop: `switch (ErrorIndicator[i])`
with cases 1 (DarkOrange) and 2 (Red) and an implicit empty default. -/
def warnStep (err : ℕ) (adr : ℕ) (l : ℕ → Color) : ℕ → Color :=
  if err = 1 then Function.update l adr darkOrange
  else if err = 2 then Function.update l adr red
  else l

/-- The full warning-overlay loop `for (i = 0; i < 4; i++)`. -/
def warnAll (errs : Fin 4 → ℕ) (l : ℕ → Color) : ℕ → Color :=
  warnStep (errs 3) (ErrorIndicatorAdr 3)
    (warnStep (errs 2) (ErrorIndicatorAdr 2)
      (warnStep (errs 1) (ErrorIndicatorAdr 1)
        (warnStep (errs 0) (ErrorIndicatorAdr 0) l)))

/-- Apply a write list to the buffer in order; an index outside `[0,128)`
leaves the buffer untouched (in C++ such a write is out of bounds — the
safety theorems below delimit exactly when none occurs). -/
def applyWrites (l : ℕ → Color) (ws : Writes) : ℕ → Color :=
  ws.foldl (fun f w =>
    if 0 ≤ w.1 ∧ w.1 < (NUM_LEDS : ℤ) then Function.update f w.1.toNat w.2
    else f) l

/-- `FastLED.clear()`: all pixels black. -/
def clearLeds : ℕ → Color := fun _ => black

/-- `PLedDisp::disp_time`: advances the hue throttle when the mode is
`TimeRainbow` (or `Cycle`, unreachable here), then draws the four time digits
at slot offsets 0, 28, 70, 98 and the blinking separator dots (index 66 plus
59/64 depending on style) when the seconds value is even.  All colors are
resolved against the already-updated hue cursor. -/
def disp_time (st : PState) (tm : Time) : PState :=
  let st1 :=
    if st.Fg.Mode = ModeFG.TimeRainbow ∨ st.Fg.Mode = ModeFG.Cycle then
      let p := throttleStep (st.bg_counter, st.bg_colour.hue)
      { st with bg_counter := p.1, bg_colour := { st.bg_colour with hue := p.2 } }
    else st
  let ws : Writes :=
    disp_digit (tm.hour / 10) 0 st1.Fg st1.bg_colour ++
    disp_digit (tm.hour % 10) 28 st1.Fg st1.bg_colour ++
    disp_digit (tm.minute / 10) 70 st1.Fg st1.bg_colour ++
    disp_digit (tm.minute % 10) (70 + 28) st1.Fg st1.bg_colour ++
    (if tm.second % 2 = 0 then
      [((66 : ℤ), fg_palette 66 st1.Fg st1.bg_colour)] ++
      (if st1.Fg.is_slant then [((59 : ℤ), fg_palette 59 st1.Fg st1.bg_colour)]
       else [((64 : ℤ), fg_palette 64 st1.Fg st1.bg_colour)])
     else [])
  { st1 with leds := applyWrites st1.leds ws }

/-- The background dispatch of `update_LEDs` (first `switch`). -/
def bgPhase (st : PState) (r : TwinkleRand × RainRand × FireworkRand × FirepitRand) :
    PState :=
  match st.Bg.Mode with
  | ModeBG.None => { st with leds := clearLeds }
  | ModeBG.SolidColor =>
      let ws : Writes := (List.range NUM_LEDS).map (fun (i : ℕ) => ((i : ℤ), st.Bg.Color))
      { st with leds := applyWrites st.leds ws }
  | ModeBG.ScrollingRainbow =>
      let p := throttleStep (st.bg_counter, st.bg_colour.hue)
      let bgc : CHSV := { st.bg_colour with hue := p.2 }
      let ws : Writes := (List.range NUM_LEDS).map (fun (i : ℕ) =>
        ((i : ℤ), Color.hsv ((bgc.hue + i) % 256) bgc.sat bgc.val))
      { st with bg_counter := p.1, bg_colour := bgc, leds := applyWrites st.leds ws }
  | ModeBG.Twinkle =>
      let res := bg_twinkle st.twinkles r.1
      { st with twinkles := res.1, leds := applyWrites clearLeds res.2 }
  | ModeBG.Fireworks =>
      let res := bg_firework st.fireworks r.2.2.1
      { st with fireworks := res.1, leds := applyWrites clearLeds res.2 }
  | ModeBG.Thunderstorm =>
      let res := bg_rain st.raindrops r.2.1
      { st with raindrops := res.1, leds := applyWrites clearLeds res.2 }
  | ModeBG.Firepit =>
      { st with leds := applyWrites clearLeds (bg_firepit r.2.2.2) }

/-- The frame dispatch of `update_LEDs` (second `switch`; the `SolidColor`
case falls through into the empty `default`). -/
def frPhase (st : PState) (tm : Time) : PState :=
  match st.Fr.Mode with
  | ModeFR.None => st
  | ModeFR.Time =>
      let l := applyWrites st.leds (fr_time_writes tm.second st.Fr.Color)
      { st with leds := l }
  | ModeFR.SolidColor =>
      let l := applyWrites st.leds (fr_solid_writes st.Fr.Color)
      { st with leds := l }

/-- The foreground dispatch of `update_LEDs` (third `switch`): `Time` and
`TimeRainbow` call `disp_time`; `Cycle` draws the counter and increments it,
wrapping at 10000. -/
def fgPhase (st : PState) (tm : Time) : PState :=
  match st.Fg.Mode with
  | ModeFG.Time => disp_time st tm
  | ModeFG.TimeRainbow => disp_time st tm
  | ModeFG.None => st
  | ModeFG.Cycle =>
      let ws := disp_number ((st.cycle_counter / 1000) % 10)
        ((st.cycle_counter / 100) % 10) ((st.cycle_counter / 10) % 10)
        (st.cycle_counter % 10) st.Fg st.bg_colour
      let cc := st.cycle_counter + 1
      let cc1 := if cc ≥ 10000 then 0 else cc
      { st with leds := applyWrites st.leds ws, cycle_counter := cc1 }

/-- Wrapping `unsigned long` subtraction `a - b` (32-bit `millis()` clock). -/
def usub32 (a b : ℕ) : ℕ := (a + (2 ^ 32 - b % 2 ^ 32)) % 2 ^ 32

/-- `PLedDisp::update_LEDs` for one call at wall-clock `t` ms: the frame-rate
gate `(currentMillis - previousMillis) > FRAME_TIME_MS` returns early when it
fails; otherwise background, frame, foreground and warning overlay run in
order on the shared buffer. -/
def update_LEDs (st : PState) (t : ℕ)
    (r : TwinkleRand × RainRand × FireworkRand × FirepitRand) (tm : Time) :
    PState :=
  if usub32 t st.previousMillis > FRAME_TIME_MS then
    let st1 := { st with previousMillis := t }
    let st2 := bgPhase st1 r
    let st3 := frPhase st2 tm
    let st4 := fgPhase st3 tm
    { st4 with leds := warnAll st4.ErrorIndicator st4.leds }
  else st

/-- Run `n` render ticks 21 ms apart (each one eligible), starting at `t`. -/
def runTicks (r : TwinkleRand × RainRand × FireworkRand × FirepitRand)
    (tm : Time) : ℕ → PState → ℕ → PState
  | 0, st, _ => st
  | n + 1, st, t => runTicks r tm n (update_LEDs st t r tm) (t + 21)

/-- All write indices lie in the pixel buffer range `[0, 128)`. -/
def wvalid (ws : Writes) : Prop := ∀ w ∈ ws, 0 ≤ w.1 ∧ w.1 < (NUM_LEDS : ℤ)

/-- The twinkle pool right after construction (member initializers). -/
def twinkleInit : Fin 8 → Twinkle := fun _ => { pos := -1, stage := 0 }

/-- The firework pool right after construction (member initializers). -/
def fireworkInit : Fin 5 → Firework :=
  fun _ => { pos := -1, direction := 0, stage := 0, hue := 0, height_offset := 0 }

/-- The raindrop pool right after construction: `pos`, `stage` and `lightning`
have member initializers, but `prev_pos` does not, so its contents are the
indeterminate values `g i j` left in memory. -/
def rainInit (g : ℕ → ℕ → ℤ) : Fin 16 → Raindrop :=
  fun i => { pos := -1, stage := 0, lightning := false, prev_pos := g (i : ℕ) }

/-- Twinkle pool states reachable by running `bg_twinkle` from construction. -/
inductive TwReach : (Fin 8 → Twinkle) → Prop where
  | init : TwReach twinkleInit
  | step {p} (h : TwReach p) (r : TwinkleRand) : TwReach (bg_twinkle p r).1

/-- Firework pool states reachable by running `bg_firework` from construction. -/
inductive FwReach : (Fin 5 → Firework) → Prop where
  | init : FwReach fireworkInit
  | step {p} (h : FwReach p) (r : FireworkRand) : FwReach (bg_firework p r).1

/-- Raindrop pool states reachable by running `bg_rain` from a construction
whose uninitialized `prev_pos` memory held the values `g`. -/
inductive RainReach (g : ℕ → ℕ → ℤ) : (Fin 16 → Raindrop) → Prop where
  | init : RainReach g (rainInit g)
  | step {p} (h : RainReach g p) (r : RainRand) : RainReach g (bg_rain p r).1

/-- Invariant of the twinkle pool: every slot is free or holds a strip
position in `[0,128)`. -/
def TwInv (p : Fin 8 → Twinkle) : Prop :=
  ∀ i, (p i).pos = -1 ∨ (0 ≤ (p i).pos ∧ (p i).pos < 128)

/-- Invariant of the firework pool: every slot is free or carries the spawn
attribute ranges (`pos ∈ [3,13]`, `direction, height_offset ∈ {0,1}`,
`stage ∈ [0,24]`). -/
def FwInv (p : Fin 5 → Firework) : Prop :=
  ∀ i, (p i).pos = -1 ∨
    (3 ≤ (p i).pos ∧ (p i).pos ≤ 13 ∧
     (0 ≤ (p i).direction ∧ (p i).direction ≤ 1) ∧
     (0 ≤ (p i).height_offset ∧ (p i).height_offset ≤ 1) ∧
     (0 ≤ (p i).stage ∧ (p i).stage ≤ 24))

/-- Invariant of the raindrop pool: the first six `prev_pos` entries of every
slot (the only ones ever read) lie in `[0,128)`. -/
def RainInv (p : Fin 16 → Raindrop) : Prop :=
  ∀ i, ∀ j < 6, 0 ≤ (p i).prev_pos j ∧ (p i).prev_pos j < 128

/-- Uninitialized-memory contents for the `bg_rain` counterexample: slot 0's
`prev_pos[1]` happens to hold 999. -/
def badG : ℕ → ℕ → ℤ := fun _ j => if j = 1 then 999 else 0

/-- Draws for the counterexample's first frame: spawn roll 0 (< 200), spawn
column `3 + 17 = 20`, lightning draw 19 (flagging lightning), all drifts 0. -/
def cexR1 : RainRand :=
  { roll := 0, spawnPos := 17, lightRoll := 19,
    skyV := fun _ => 0, drift := fun _ _ => 0, rainDrift := fun _ => 0 }

/-- Draws for the counterexample's second frame: spawn roll 255 (no spawn),
all drifts 0. -/
def cexR2 : RainRand :=
  { roll := 255, spawnPos := 0, lightRoll := 0,
    skyV := fun _ => 0, drift := fun _ _ => 0, rainDrift := fun _ => 0 }

/-- The raindrop pool after the counterexample's first frame. -/
def cexPool1 : Fin 16 → Raindrop := (bg_rain (rainInit badG) cexR1).1

/-- A concrete compositor state used to instantiate theorems with hypotheses:
mode defaults from the header (`Fg = Time/Peru/slanted`, `Bg =
SolidColor/Black`, `Fr = None/DarkGrey`), pools as constructed with zeroed
`prev_pos` memory. -/
def sampleState : PState :=
  { leds := clearLeds,
    Fg := { Mode := ModeFG.Time, Color := peru, is_slant := true },
    Bg := { Mode := ModeBG.SolidColor, Color := black },
    Fr := { Mode := ModeFR.None, Color := darkGrey },
    bg_colour := { hue := 0, sat := 255, val := 190 },
    ErrorIndicator := fun _ => 0,
    previousMillis := 0, cycle_counter := 0, bg_counter := 0,
    twinkles := twinkleInit,
    raindrops := rainInit (fun _ _ => 0),
    fireworks := fireworkInit }

/-- A concrete draw tuple for instantiating `update_LEDs`. -/
def sampleRand : TwinkleRand × RainRand × FireworkRand × FirepitRand :=
  ({ roll := 255, pos := 0 }, cexR2,
   { roll := 255, pos := 0, dir := 0, hue := 0, ho := 0 },
   { hueJit := fun _ _ => 0, bright := fun _ _ => 0 })

/-- A concrete time (13:45:30). -/
def sampleTime : Time := { hour := 13, minute := 45, second := 30 }

/-- Number of active rainbow hue-cursor consumers in a tick: the
`ScrollingRainbow` background and the `TimeRainbow` foreground each run the
throttle body once (the `Cycle` foreground never reaches it). -/
def rainbowConsumers (st : PState) : ℕ :=
  (if st.Bg.Mode = ModeBG.ScrollingRainbow then 1 else 0) +
  (if st.Fg.Mode = ModeFG.TimeRainbow then 1 else 0)

/-- Compositor state with both rainbow consumers active (hue cursor at 0). -/
def stBoth : PState :=
  { sampleState with
    Bg := { Mode := ModeBG.ScrollingRainbow, Color := black },
    Fg := { Mode := ModeFG.TimeRainbow, Color := peru, is_slant := false } }

/-- Compositor state with only the rainbow background active. -/
def stBgOnly : PState :=
  { sampleState with
    Bg := { Mode := ModeBG.ScrollingRainbow, Color := black },
    Fg := { Mode := ModeFG.Time, Color := peru, is_slant := false } }

/-- Iterated firework frames: fold `bg_firework` over a list of draws. -/
def fwRun (p : Fin 5 → Firework) (rs : List FireworkRand) : Fin 5 → Firework :=
  rs.foldl (fun q r => (bg_firework q r).1) p

/-- Iterated twinkle frames: fold `bg_twinkle` over a list of draws. -/
def twRun (p : Fin 8 → Twinkle) (rs : List TwinkleRand) : Fin 8 → Twinkle :=
  rs.foldl (fun q r => (bg_twinkle q r).1) p

/-- The shared hue-cursor state: `(bg_counter, bg_colour.hue)`. -/
def hueState (st : PState) : ℕ × ℕ := (st.bg_counter, st.bg_colour.hue)

/-- Sample state with indicator 0 at severity 2 (error) and indicator 1 at
severity 1 (warning). -/
def warnSample : PState :=
  { sampleState with ErrorIndicator := fun i => if i = 0 then 2 else 1 }

/-- A twinkle pool with slot 0 freshly spawned (position 5, stage 16). -/
def twPoolW : Fin 8 → Twinkle :=
  Function.update twinkleInit 0 { pos := 5, stage := 16 }

/-- A twinkle draw that spawns at position 5. -/
def twSpawnR5 : TwinkleRand := { roll := 0, pos := 5 }

/-- A twinkle draw that rolls no spawn. -/
def twR0 : TwinkleRand := { roll := 255, pos := 0 }

/-- A firework pool with slot 0 active at position 5, stage 2. -/
def fwPoolW : Fin 5 → Firework :=
  Function.update fireworkInit 0
    { pos := 5, direction := 0, stage := 2, hue := 0, height_offset := 0 }

/-- A firework draw that rolls no spawn. -/
def fwR0 : FireworkRand := { roll := 255, pos := 0, dir := 0, hue := 0, ho := 0 }

/-! ## Theorems -/

/-- C2: in the 7×20 lattice address table every entry is either the sentinel
999 or a strip index in `[0,128)`, and the non-sentinel entries are exactly
`{0,…,127}`, each appearing exactly once. -/
theorem led_address_bijection :
    led_address.length = 7 ∧
    (∀ row ∈ led_address, row.length = 20) ∧
    (∀ e ∈ led_address.flatten, e = 999 ∨ (0 ≤ e ∧ e < 128)) ∧
    (led_address.flatten.filter (fun e => e ≠ 999)).Nodup ∧
    (led_address.flatten.filter (fun e => e ≠ 999)).length = 128 ∧
    (∀ k : Fin 128, ((k : ℕ) : ℤ) ∈ led_address.flatten.filter (fun e => e ≠ 999)) := by
  set_option maxRecDepth 4000 in decide

/-- C2 witness: strip index 0 occurs among the non-sentinel entries. -/
theorem led_address_bijection_witness :
    (((0 : Fin 128) : ℕ) : ℤ) ∈ led_address.flatten.filter (fun e => e ≠ 999) :=
  led_address_bijection.2.2.2.2.2 0

/-- C3: a call to `update_LEDs` made while `currentMillis - previousMillis`
is still at most `FRAME_TIME_MS` is a no-op: the whole compositor state —
pixel buffer, every particle pool, hue cursor, throttle counter, cycle
counter and last-call timestamp — is returned unchanged. -/
theorem update_LEDs_noop (st : PState) (t : ℕ)
    (r : TwinkleRand × RainRand × FireworkRand × FirepitRand) (tm : Time)
    (h : usub32 t st.previousMillis ≤ FRAME_TIME_MS) :
    update_LEDs st t r tm = st := by
  unfold update_LEDs
  rw [if_neg (by omega)]

/-- C3 witness: a second call 10 ms after an eligible call leaves the sample
state untouched. -/
theorem update_LEDs_noop_witness :
    usub32 10 sampleState.previousMillis ≤ FRAME_TIME_MS ∧
    update_LEDs sampleState 10 sampleRand sampleTime = sampleState :=
  ⟨by decide, update_LEDs_noop sampleState 10 sampleRand sampleTime (by decide)⟩

/-- C4: for every digit 0–9, both styles, and every slot offset used by the
time renderer (0, 28, 70, 98) and the number renderer (14, 42, 70, 98), every
index resolved by `disp_digit` (after the slanted-style `indx < 7 → indx + 1`
correction and guard) lies in `[0,128)`, so digit drawing never writes outside
the 128-entry pixel buffer. -/
theorem disp_digit_in_bounds :
    ∀ num < 10, ∀ offset ∈ ([0, 14, 28, 42, 70, 98] : List ℤ),
    ∀ (fg : Foreground) (bgc : CHSV), ∀ w ∈ disp_digit num offset fg bgc,
      0 ≤ w.1 ∧ w.1 < 128 := by
  have core : ∀ num < 10, ∀ offset ∈ ([0, 14, 28, 42, 70, 98] : List ℤ),
      ∀ (sl : Bool), ∀ i ∈ digit_indices num sl offset, 0 ≤ i ∧ i < 128 := by
    decide
  intro num hn offset hoff fg bgc w hw
  unfold disp_digit at hw
  obtain ⟨i, hi, rfl⟩ := List.mem_map.1 hw
  exact core num hn offset hoff fg.is_slant i hi

/-- C4 witness: digit 1, slot offset 0, slanted style — the first resolved
pixel (index 7) is in bounds. -/
theorem disp_digit_in_bounds_witness :
    (1 < 10 ∧ (0 : ℤ) ∈ ([0, 14, 28, 42, 70, 98] : List ℤ)) ∧
    (0 ≤ (7 : ℤ) ∧ (7 : ℤ) < 128) :=
  ⟨⟨by decide, by decide⟩,
   disp_digit_in_bounds 1 (by decide) 0 (by decide)
     sampleState.Fg sampleState.bg_colour
     (7, fg_palette 7 sampleState.Fg sampleState.bg_colour) (by decide)⟩

/-- C6: for seconds 0–59, `fr_time` colors exactly
`⌊secondsElapsed · 44 / 59⌋` pixels (never more than 44) taken from the start
of the 44-entry frame-outline ordering (whose entries are pairwise distinct);
the filled count is monotone in the seconds value and 0 at wraparound. -/
theorem fr_time_sweep (sec : ℕ) (h : sec ≤ 59) (c : Color) :
    fr_time_writes sec c =
      (frameList.take ((sec * 44) / 59)).map (fun v => (v, c)) ∧
    (fr_time_writes sec c).length = (sec * 44) / 59 ∧
    (sec * 44) / 59 ≤ 44 ∧
    frameList.Nodup ∧ frameList.length = 44 ∧
    (∀ s1 s2 : ℕ, s1 ≤ s2 → (s1 * 44) / 59 ≤ (s2 * 44) / 59) ∧
    (0 * 44) / 59 = 0 := by
  have hidx : ∀ s < 60, fr_time_indices s = frameList.take ((s * 44) / 59) := by
    decide
  have hival := hidx sec (by omega)
  have hlen : (sec * 44) / 59 ≤ 44 := by omega
  refine ⟨?_, ?_, hlen, by decide, by decide, ?_, by decide⟩
  · unfold fr_time_writes
    rw [hival]
  · unfold fr_time_writes
    rw [hival, List.length_map, List.length_take]
    have : frameList.length = 44 := by decide
    omega
  · intro s1 s2 hs
    exact Nat.div_le_div_right (Nat.mul_le_mul_right _ hs)

/-- C6 witness: at 30 s the sweep has filled exactly 22 frame pixels. -/
theorem fr_time_sweep_witness :
    (30 ≤ 59) ∧ (fr_time_writes 30 darkGrey).length = (30 * 44) / 59 :=
  ⟨by decide, (fr_time_sweep 30 (by decide) darkGrey).2.1⟩

/-- C10: the invalid-index guard of `fg_palette` (`indx < 0 && indx >= 128`)
is unsatisfiable, so for every integer index — in or out of `[0,128)` — the
resolver returns the rainbow sample `(hue + indx) mod 256` in `TimeRainbow`
and `Cycle` modes and the configured solid color otherwise, never the Black
fallback. -/
theorem fg_palette_no_fallback (indx : ℤ) (fg : Foreground) (bgc : CHSV) :
    fg_palette indx fg bgc =
      if fg.Mode = ModeFG.TimeRainbow ∨ fg.Mode = ModeFG.Cycle then
        Color.hsv (((bgc.hue : ℤ) + indx) % 256).toNat bgc.sat bgc.val
      else fg.Color := by
  unfold fg_palette
  have h : ¬ (indx < 0 ∧ indx ≥ (NUM_LEDS : ℤ)) := by
    rintro ⟨h1, h2⟩
    simp [NUM_LEDS] at h2
    omega
  rw [if_neg h]

/-- The background phase never touches the warning levels. -/
theorem bgPhase_ErrorIndicator (st : PState)
    (r : TwinkleRand × RainRand × FireworkRand × FirepitRand) :
    (bgPhase st r).ErrorIndicator = st.ErrorIndicator := by
  unfold bgPhase
  cases hM : st.Bg.Mode <;> rfl

/-- The frame phase never touches the warning levels. -/
theorem frPhase_ErrorIndicator (st : PState) (tm : Time) :
    (frPhase st tm).ErrorIndicator = st.ErrorIndicator := by
  unfold frPhase
  cases hM : st.Fr.Mode <;> rfl

/-- `disp_time` never touches the warning levels. -/
theorem disp_time_ErrorIndicator (st : PState) (tm : Time) :
    (disp_time st tm).ErrorIndicator = st.ErrorIndicator := by
  unfold disp_time
  split <;> rfl

/-- The foreground phase never touches the warning levels. -/
theorem fgPhase_ErrorIndicator (st : PState) (tm : Time) :
    (fgPhase st tm).ErrorIndicator = st.ErrorIndicator := by
  unfold fgPhase
  cases hM : st.Fg.Mode
  · rfl
  · exact disp_time_ErrorIndicator st tm
  · exact disp_time_ErrorIndicator st tm
  · rfl

/-- The warning overlay forces the indicator pixel to the severity color,
whatever the buffer held. -/
theorem warnAll_sets_indicator (errs : Fin 4 → ℕ) (l : ℕ → Color) (i : Fin 4) :
    (errs i = 2 → warnAll errs l (ErrorIndicatorAdr i) = red) ∧
    (errs i = 1 → warnAll errs l (ErrorIndicatorAdr i) = darkOrange) := by
  have hne : ∀ (err adr : ℕ) (l1 : ℕ → Color) (x : ℕ), x ≠ adr →
      warnStep err adr l1 x = l1 x := by
    intro err adr l1 x hx
    unfold warnStep
    split_ifs <;> simp [Function.update_apply, hx]
  have h2 : ∀ (err adr : ℕ) (l1 : ℕ → Color), err = 2 →
      warnStep err adr l1 adr = red := by
    intro err adr l1 he
    subst he
    unfold warnStep
    simp [Function.update_apply]
  have h1 : ∀ (err adr : ℕ) (l1 : ℕ → Color), err = 1 →
      warnStep err adr l1 adr = darkOrange := by
    intro err adr l1 he
    subst he
    unfold warnStep
    simp [Function.update_apply]
  fin_cases i <;> refine ⟨fun h => ?_, fun h => ?_⟩ <;> unfold warnAll <;>
    (repeat rw [hne _ _ _ _ (by decide)]) <;>
    first
    | exact h2 _ _ _ h
    | exact h1 _ _ _ h

/-- C5: `setWarning` stores the severity when `statusOk` is false and clears
to 0 when it is true; on any eligible render tick, an indicator at severity 2
ends with its fixed pixel (118/119/127/126) equal to the error color and at
severity 1 equal to the warning color, regardless of what the background,
frame or foreground wrote there earlier in the tick. -/
theorem warning_overlay_end_to_end (st : PState) (i : Fin 4) (lvl : ℕ) (t : ℕ)
    (r : TwinkleRand × RainRand × FireworkRand × FirepitRand) (tm : Time)
    (helig : usub32 t st.previousMillis > FRAME_TIME_MS) :
    ((setWarning st (i : ℕ) false lvl).ErrorIndicator i = lvl ∧
     (setWarning st (i : ℕ) true lvl).ErrorIndicator i = 0) ∧
    (st.ErrorIndicator i = 2 →
      (update_LEDs st t r tm).leds (ErrorIndicatorAdr i) = red) ∧
    (st.ErrorIndicator i = 1 →
      (update_LEDs st t r tm).leds (ErrorIndicatorAdr i) = darkOrange) := by
  have hupd : (update_LEDs st t r tm).leds =
      warnAll st.ErrorIndicator
        (fgPhase (frPhase (bgPhase { st with previousMillis := t } r) tm) tm).leds := by
    unfold update_LEDs
    rw [if_pos helig]
    have hE : (fgPhase (frPhase (bgPhase { st with previousMillis := t } r) tm)
        tm).ErrorIndicator = st.ErrorIndicator := by
      rw [fgPhase_ErrorIndicator, frPhase_ErrorIndicator, bgPhase_ErrorIndicator]
    dsimp only
    rw [hE]
  refine ⟨⟨?_, ?_⟩, ?_, ?_⟩
  · unfold setWarning
    rw [dif_pos i.isLt]
    simp [Function.update_apply]
  · unfold setWarning
    rw [dif_pos i.isLt]
    simp [Function.update_apply]
  · intro h2
    rw [hupd]
    exact (warnAll_sets_indicator _ _ i).1 h2
  · intro h1
    rw [hupd]
    exact (warnAll_sets_indicator _ _ i).2 h1

/-- C5 witness: on `warnSample`, indicator 0 (severity 2) renders pixel 118
red and indicator 1 (severity 1) renders pixel 119 orange on an eligible
tick. -/
theorem warning_overlay_witness :
    usub32 30 warnSample.previousMillis > FRAME_TIME_MS ∧
    ((update_LEDs warnSample 30 sampleRand sampleTime).leds (ErrorIndicatorAdr 0) = red ∧
     (update_LEDs warnSample 30 sampleRand sampleTime).leds (ErrorIndicatorAdr 1) = darkOrange) :=
  ⟨by decide,
   (warning_overlay_end_to_end warnSample 0 2 30 sampleRand sampleTime
      (by decide)).2.1 (by decide),
   (warning_overlay_end_to_end warnSample 1 1 30 sampleRand sampleTime
      (by decide)).2.2 (by decide)⟩

/-- The background phase runs the throttle body exactly when the background
is `ScrollingRainbow`. -/
theorem bgPhase_hueState (st : PState)
    (r : TwinkleRand × RainRand × FireworkRand × FirepitRand) :
    hueState (bgPhase st r) =
      if st.Bg.Mode = ModeBG.ScrollingRainbow then throttleStep (hueState st)
      else hueState st := by
  unfold bgPhase hueState
  cases hM : st.Bg.Mode <;> simp [hM]

/-- The frame phase never touches the hue cursor. -/
theorem frPhase_hueState (st : PState) (tm : Time) :
    hueState (frPhase st tm) = hueState st := by
  unfold frPhase hueState
  cases hM : st.Fr.Mode <;> rfl

/-- `disp_time` runs the throttle body exactly when the foreground mode is
`TimeRainbow` or `Cycle`. -/
theorem disp_time_hueState (st : PState) (tm : Time) :
    hueState (disp_time st tm) =
      if st.Fg.Mode = ModeFG.TimeRainbow ∨ st.Fg.Mode = ModeFG.Cycle then
        throttleStep (hueState st)
      else hueState st := by
  unfold disp_time hueState
  split <;> simp

/-- The foreground phase runs the throttle body exactly when the foreground
is `TimeRainbow` (`Cycle` draws via `disp_number` and never reaches the
throttle). -/
theorem fgPhase_hueState (st : PState) (tm : Time) :
    hueState (fgPhase st tm) =
      if st.Fg.Mode = ModeFG.TimeRainbow then throttleStep (hueState st)
      else hueState st := by
  unfold fgPhase
  cases hM : st.Fg.Mode
  · simp [hM, hueState]
  · rw [disp_time_hueState, hM]
    simp
  · rw [disp_time_hueState, hM]
    simp
  · simp [hM, hueState]

/-- The background phase preserves the foreground configuration. -/
theorem bgPhase_Fg (st : PState)
    (r : TwinkleRand × RainRand × FireworkRand × FirepitRand) :
    (bgPhase st r).Fg = st.Fg := by
  unfold bgPhase
  cases hM : st.Bg.Mode <;> rfl

/-- The frame phase preserves the foreground configuration. -/
theorem frPhase_Fg (st : PState) (tm : Time) :
    (frPhase st tm).Fg = st.Fg := by
  unfold frPhase
  cases hM : st.Fr.Mode <;> rfl

/-- C7 (amended): on an eligible tick the hue cursor advances by one
`throttleStep` per active rainbow consumer — one for a `ScrollingRainbow`
background and one for a `TimeRainbow` foreground (a `Cycle` foreground does
not touch the throttle).  The throttle itself increments its counter up to
`REFRESH_RATE_HZ/4 = 12` and only then steps the hue and resets, so a single
consumer advances the hue once per 13 eligible frames, and with both
consumers active the cadence doubles rather than staying fixed. -/
theorem hue_cursor_cadence (st : PState) (t : ℕ)
    (r : TwinkleRand × RainRand × FireworkRand × FirepitRand) (tm : Time)
    (helig : usub32 t st.previousMillis > FRAME_TIME_MS) :
    hueState (update_LEDs st t r tm) =
      throttleStep^[rainbowConsumers st] (hueState st) := by
  unfold update_LEDs
  rw [if_pos helig]
  dsimp only
  have hst1 : hueState { st with previousMillis := t } = hueState st := rfl
  have h2 := bgPhase_hueState { st with previousMillis := t } r
  have h3 := frPhase_hueState (bgPhase { st with previousMillis := t } r) tm
  have h4 := fgPhase_hueState
    (frPhase (bgPhase { st with previousMillis := t } r) tm) tm
  have hFg : (frPhase (bgPhase { st with previousMillis := t } r) tm).Fg = st.Fg := by
    rw [frPhase_Fg, bgPhase_Fg]
  have hwarn : hueState { fgPhase (frPhase (bgPhase { st with previousMillis := t } r) tm) tm
      with leds := warnAll (fgPhase (frPhase (bgPhase { st with previousMillis := t } r) tm)
        tm).ErrorIndicator (fgPhase (frPhase (bgPhase { st with previousMillis := t } r) tm)
        tm).leds } =
      hueState (fgPhase (frPhase (bgPhase { st with previousMillis := t } r) tm) tm) := rfl
  rw [hwarn, h4, hFg, h3, h2, hst1]
  unfold rainbowConsumers
  rcases hbg : st.Bg.Mode <;> rcases hfg : st.Fg.Mode <;>
    simp [hbg, hfg, Function.iterate_succ_apply, Function.iterate_zero_apply]

/-- C7 witness for the amended cadence theorem: one eligible tick of `stBoth`
advances the hue state by two throttle steps. -/
theorem hue_cursor_cadence_witness :
    usub32 21 stBoth.previousMillis > FRAME_TIME_MS ∧
    hueState (update_LEDs stBoth 21 sampleRand sampleTime) =
      throttleStep^[rainbowConsumers stBoth] (hueState stBoth) :=
  ⟨by decide, hue_cursor_cadence stBoth 21 sampleRand sampleTime (by decide)⟩

/-- C7 counterexample to the claim as stated: starting from counter 0 and hue
0, with both rainbow consumers active the hue has already advanced after 7
eligible frames, while with only the background consumer the hue is still 0
after 12 eligible frames (`REFRESH_RATE/4 = 12`) and first advances on frame
13 — the cadence is neither one step per 12 frames nor independent of which
consumers are active. -/
theorem hue_cursor_cadence_counterexample :
    hueState (runTicks sampleRand sampleTime 7 stBoth 21) = (1, 1) ∧
    hueState (runTicks sampleRand sampleTime 7 stBgOnly 21) = (7, 0) ∧
    hueState (runTicks sampleRand sampleTime 12 stBgOnly 21) = (12, 0) ∧
    hueState (runTicks sampleRand sampleTime 13 stBgOnly 21) = (0, 1) := by
  refine ⟨?_, ?_, ?_, ?_⟩ <;> rfl

/-- The `empty_slot` scan only reports slots whose position is the free
sentinel. -/
theorem firstFree_spec {n : ℕ} (pool : Fin n → ℤ) (j : Fin n)
    (h : firstFree pool = some j) : pool j = -1 := by
  unfold firstFree at h
  have := List.find?_some h
  exact of_decide_eq_true this

/-- The twinkle spawn phase never touches an occupied slot. -/
theorem twSpawn_preserve (pool : Fin 8 → Twinkle) (r : TwinkleRand) (i : Fin 8)
    (h : (pool i).pos ≠ -1) : twSpawn pool r i = pool i := by
  unfold twSpawn
  split
  · cases hff : firstFree (fun k => (pool k).pos) with
    | none => rfl
    | some j =>
        have hj := firstFree_spec _ _ hff
        have hij : i ≠ j := by
          intro e
          exact h (by rw [e]; exact hj)
        simp [Function.update_apply, hij]
  · rfl

/-- The firework spawn phase never touches an occupied slot. -/
theorem fwSpawn_preserve (pool : Fin 5 → Firework) (r : FireworkRand) (i : Fin 5)
    (h : (pool i).pos ≠ -1) : fwSpawn pool r i = pool i := by
  unfold fwSpawn
  split
  · cases hff : firstFree (fun k => (pool k).pos) with
    | none => rfl
    | some j =>
        have hj := firstFree_spec _ _ hff
        have hij : i ≠ j := by
          intro e
          exact h (by rw [e]; exact hj)
        simp [Function.update_apply, hij]
  · rfl

/-- Writes of any single slot occur among the writes of the whole
`bg_twinkle` call. -/
theorem mem_bg_twinkle_writes (pool : Fin 8 → Twinkle) (r : TwinkleRand)
    (i : Fin 8) (w : ℤ × Color) (hw : w ∈ (twAdvSlot (twSpawn pool r i)).2) :
    w ∈ (bg_twinkle pool r).2 := by
  unfold bg_twinkle
  exact List.mem_flatMap.2 ⟨i, List.mem_finRange i, hw⟩

/-- One `bg_twinkle` call, seen from an occupied slot with stage `s ≥ 1`:
it renders brightness `8s` at the slot's position, decrements the stage, and
frees the slot exactly when the stage reaches 0. -/
theorem bg_twinkle_active_step (pool : Fin 8 → Twinkle) (r : TwinkleRand)
    (i : Fin 8) (s : ℕ) (h1 : 1 ≤ s) (h31 : s ≤ 31)
    (hpos : (pool i).pos ≠ -1) (hst : (pool i).stage = (s : ℤ)) :
    ((pool i).pos, Color.rgb (8 * s) (8 * s) (8 * s)) ∈ (bg_twinkle pool r).2 ∧
    ((bg_twinkle pool r).1 i).stage = (s : ℤ) - 1 ∧
    ((bg_twinkle pool r).1 i).pos = (if s = 1 then -1 else (pool i).pos) := by
  have hsp := twSpawn_preserve pool r i hpos
  have hcond : (twSpawn pool r i).pos ≠ -1 ∧ (twSpawn pool r i).stage > 0 := by
    rw [hsp, hst]
    exact ⟨hpos, by exact_mod_cast h1⟩
  have hu8 : intToU8 (8 * (s : ℤ)) = 8 * s := by
    unfold intToU8
    omega
  have hadv : twAdvSlot (twSpawn pool r i) =
      ({ pos := if (s : ℤ) - 1 = 0 then -1 else (pool i).pos, stage := (s : ℤ) - 1 },
       [((pool i).pos, Color.rgb (8 * s) (8 * s) (8 * s))]) := by
    unfold twAdvSlot
    rw [if_pos hcond, hsp, hst]
    dsimp only
    rw [hu8]
  refine ⟨?_, ?_, ?_⟩
  · apply mem_bg_twinkle_writes pool r i
    rw [hadv]
    exact List.mem_singleton.2 rfl
  · show (twAdvSlot (twSpawn pool r i)).1.stage = (s : ℤ) - 1
    rw [hadv]
  · show (twAdvSlot (twSpawn pool r i)).1.pos = _
    rw [hadv]
    dsimp only
    split_ifs <;> first | rfl | omega

/-- C9: a twinkle slot spawned at stage 16 renders brightness `8 × stage`
each eligible frame (128 on the spawn frame itself); on every frame an active
slot's stage decrements, the rendered brightness `8s` strictly exceeds the
next frame's `8(s−1)`, and when the stage reaches 0 the position is reset to
the −1 sentinel, making the slot free for the very next frame's spawn scan. -/
theorem twinkle_fade :
    (∀ (pool : Fin 8 → Twinkle) (r : TwinkleRand) (i : Fin 8),
      firstFree (fun k => (pool k).pos) = some i → (r.roll : ℕ) < 96 →
      ((bg_twinkle pool r).1 i).stage = 15 ∧
      ((bg_twinkle pool r).1 i).pos = ((r.pos : ℕ) : ℤ) ∧
      (((r.pos : ℕ) : ℤ), Color.rgb 128 128 128) ∈ (bg_twinkle pool r).2) ∧
    (∀ (pool : Fin 8 → Twinkle) (r : TwinkleRand) (i : Fin 8) (s : ℕ),
      1 ≤ s → s ≤ 16 → (pool i).pos ≠ -1 → (pool i).stage = (s : ℤ) →
      ((pool i).pos, Color.rgb (8 * s) (8 * s) (8 * s)) ∈ (bg_twinkle pool r).2 ∧
      ((bg_twinkle pool r).1 i).stage = (s : ℤ) - 1 ∧
      ((bg_twinkle pool r).1 i).pos = (if s = 1 then -1 else (pool i).pos) ∧
      (2 ≤ s → ∀ r2 : TwinkleRand,
        ((pool i).pos, Color.rgb (8 * (s - 1)) (8 * (s - 1)) (8 * (s - 1))) ∈
          (bg_twinkle (bg_twinkle pool r).1 r2).2 ∧
        8 * (s - 1) < 8 * s)) := by
  constructor
  · intro pool r i hff hroll
    have hspawn : twSpawn pool r i =
        { pos := ((r.pos : ℕ) : ℤ), stage := 16 } := by
      unfold twSpawn
      rw [if_pos hroll, hff]
      exact Function.update_same i _ pool
    have hcond : (twSpawn pool r i).pos ≠ -1 ∧ (twSpawn pool r i).stage > 0 := by
      rw [hspawn]
      refine ⟨?_, by norm_num⟩
      dsimp only
      omega
    have hadv : twAdvSlot (twSpawn pool r i) =
        ({ pos := ((r.pos : ℕ) : ℤ), stage := 15 },
         [(((r.pos : ℕ) : ℤ), Color.rgb 128 128 128)]) := by
      unfold twAdvSlot
      rw [if_pos hcond, hspawn]
      norm_num [intToU8]
      decide
    refine ⟨?_, ?_, ?_⟩
    · show (twAdvSlot (twSpawn pool r i)).1.stage = 15
      rw [hadv]
    · show (twAdvSlot (twSpawn pool r i)).1.pos = _
      rw [hadv]
    · apply mem_bg_twinkle_writes pool r i
      rw [hadv]
      exact List.mem_singleton.2 rfl
  · intro pool r i s h1 h16 hpos hst
    obtain ⟨hmem, hstage, hposstep⟩ :=
      bg_twinkle_active_step pool r i s h1 (by omega) hpos hst
    refine ⟨hmem, hstage, hposstep, ?_⟩
    intro h2 r2
    have hpos1 : ((bg_twinkle pool r).1 i).pos = (pool i).pos := by
      rw [hposstep, if_neg (by omega)]
    have hpos1' : ((bg_twinkle pool r).1 i).pos ≠ -1 := by
      rw [hpos1]; exact hpos
    have hst1 : ((bg_twinkle pool r).1 i).stage = ((s - 1 : ℕ) : ℤ) := by
      rw [hstage]; omega
    obtain ⟨hmem2, _, _⟩ :=
      bg_twinkle_active_step (bg_twinkle pool r).1 r2 i (s - 1)
        (by omega) (by omega) hpos1' hst1
    rw [hpos1] at hmem2
    exact ⟨hmem2, by omega⟩

/-- C9 witness: a pool with slot 0 at stage 16 renders brightness 128 on the
next call and decrements to stage 15. -/
theorem twinkle_fade_witness :
    (1 ≤ 16 ∧ (twPoolW 0).pos ≠ -1 ∧ (twPoolW 0).stage = ((16 : ℕ) : ℤ)) ∧
    ((twPoolW 0).pos, Color.rgb (8 * 16) (8 * 16) (8 * 16)) ∈
      (bg_twinkle twPoolW twR0).2 :=
  ⟨⟨by decide, by decide, by decide⟩,
   (twinkle_fade.2 twPoolW twR0 0 16 (by decide) (by decide) (by decide)
      (by decide)).1⟩

/-- One `bg_firework` call, seen from an occupied slot with stage `s ≥ 1`:
the stage decrements and the slot is freed exactly when it reaches 0; all
other attributes survive. -/
theorem bg_firework_active_step (pool : Fin 5 → Firework) (r : FireworkRand)
    (i : Fin 5) (s : ℕ) (h1 : 1 ≤ s)
    (hpos : (pool i).pos ≠ -1) (hst : (pool i).stage = (s : ℤ)) :
    ((bg_firework pool r).1 i).stage = (s : ℤ) - 1 ∧
    ((bg_firework pool r).1 i).pos = (if s = 1 then -1 else (pool i).pos) := by
  have hsp := fwSpawn_preserve pool r i hpos
  have hcond : (fwSpawn pool r i).pos ≠ -1 ∧ (fwSpawn pool r i).stage > 0 := by
    rw [hsp, hst]
    exact ⟨hpos, by exact_mod_cast h1⟩
  constructor
  · show (fwAdvSlot (fwSpawn pool r i)).1.stage = (s : ℤ) - 1
    unfold fwAdvSlot
    rw [if_pos hcond, hsp, hst]
  · show (fwAdvSlot (fwSpawn pool r i)).1.pos = _
    unfold fwAdvSlot
    rw [if_pos hcond, hsp, hst]
    dsimp only
    split_ifs <;> first | rfl | omega

/-- Iterating `bg_firework` for exactly `s` frames from an occupied slot at
stage `s` frees that slot (stage 0, position −1). -/
theorem fw_countdown : ∀ (s : ℕ), 1 ≤ s →
    ∀ (pool : Fin 5 → Firework) (i : Fin 5), (pool i).pos ≠ -1 →
    (pool i).stage = (s : ℤ) → ∀ rs : List FireworkRand, rs.length = s →
    ((fwRun pool rs) i).pos = -1 ∧ ((fwRun pool rs) i).stage = 0 := by
  intro s
  induction s with
  | zero => omega
  | succ n ih =>
      intro _ pool i hpos hst rs hlen
      cases rs with
      | nil => simp at hlen
      | cons r rs' =>
          have hstep := bg_firework_active_step pool r i (n + 1) (by omega) hpos hst
          have hlen' : rs'.length = n := by simpa using hlen
          have hrun : fwRun pool (r :: rs') = fwRun (bg_firework pool r).1 rs' := rfl
          rw [hrun]
          rcases Nat.eq_zero_or_pos n with hn | hn
          · subst hn
            have hrs' : rs' = [] := List.length_eq_zero.1 hlen'
            subst hrs'
            refine ⟨?_, ?_⟩
            · show ((bg_firework pool r).1 i).pos = -1
              rw [hstep.2, if_pos rfl]
            · show ((bg_firework pool r).1 i).stage = 0
              rw [hstep.1]
              norm_num
          · apply ih hn (bg_firework pool r).1 i ?_ ?_ rs' hlen'
            · rw [hstep.2, if_neg (by omega)]
              exact hpos
            · rw [hstep.1]
              push_cast
              ring
/-- C8: a firework shell spawned with start stage 24 (the spawn frame itself
advances it to 23 and paints the launch point) has its stage decremented by
one on every subsequent eligible frame regardless of its random position,
direction, hue or height offset, reaches exactly stage 0 within 24 frames of
the spawn, and is then freed — its position reset to the −1 sentinel that the
spawn scan treats as available. -/
theorem firework_lifecycle :
    (∀ (pool : Fin 5 → Firework) (r : FireworkRand) (i : Fin 5),
      firstFree (fun k => (pool k).pos) = some i → (r.roll : ℕ) < 24 →
      ((bg_firework pool r).1 i).stage = 23 ∧
      ((bg_firework pool r).1 i).pos = 3 + ((r.pos : ℕ) : ℤ)) ∧
    (∀ (pool : Fin 5 → Firework) (r : FireworkRand) (i : Fin 5) (s : ℕ),
      1 ≤ s → (pool i).pos ≠ -1 → (pool i).stage = (s : ℤ) →
      ((bg_firework pool r).1 i).stage = (s : ℤ) - 1 ∧
      ((bg_firework pool r).1 i).pos = (if s = 1 then -1 else (pool i).pos)) ∧
    (∀ (pool : Fin 5 → Firework) (i : Fin 5) (s : ℕ),
      1 ≤ s → s ≤ 24 → (pool i).pos ≠ -1 → (pool i).stage = (s : ℤ) →
      ∀ rs : List FireworkRand, rs.length = s →
        ((fwRun pool rs) i).pos = -1 ∧ ((fwRun pool rs) i).stage = 0) := by
  refine ⟨?_, ?_, ?_⟩
  · intro pool r i hff hroll
    have hspawn : fwSpawn pool r i =
        { pos := 3 + ((r.pos : ℕ) : ℤ), stage := 24,
          direction := ((r.dir : ℕ) : ℤ), hue := (r.hue : ℕ),
          height_offset := ((r.ho : ℕ) : ℤ) } := by
      unfold fwSpawn
      rw [if_pos hroll, hff]
      exact Function.update_same i _ pool
    have hcond : (fwSpawn pool r i).pos ≠ -1 ∧ (fwSpawn pool r i).stage > 0 := by
      rw [hspawn]
      refine ⟨?_, by norm_num⟩
      dsimp only
      omega
    constructor
    · show (fwAdvSlot (fwSpawn pool r i)).1.stage = 23
      unfold fwAdvSlot
      rw [if_pos hcond, hspawn]
      norm_num
    · show (fwAdvSlot (fwSpawn pool r i)).1.pos = 3 + ((r.pos : ℕ) : ℤ)
      unfold fwAdvSlot
      rw [if_pos hcond, hspawn]
      norm_num
  · intro pool r i s h1 hpos hst
    exact bg_firework_active_step pool r i s h1 hpos hst
  · intro pool i s h1 _ hpos hst rs hlen
    exact fw_countdown s h1 pool i hpos hst rs hlen

/-- C8 witness: a slot at stage 2 is freed after exactly two frames. -/
theorem firework_lifecycle_witness :
    (1 ≤ 2 ∧ 2 ≤ 24 ∧ (fwPoolW 0).pos ≠ -1 ∧ (fwPoolW 0).stage = ((2 : ℕ) : ℤ)) ∧
    ((fwRun fwPoolW [fwR0, fwR0]) 0).pos = -1 ∧
    ((fwRun fwPoolW [fwR0, fwR0]) 0).stage = 0 :=
  ⟨⟨by decide, by decide, by decide, by decide⟩,
   firework_lifecycle.2.2 fwPoolW 0 2 (by decide) (by decide) (by decide)
     (by decide) [fwR0, fwR0] (by decide)⟩

/-- The static sky rows of `bg_rain` only touch valid strip indices. -/
theorem rainSky_valid (r : RainRand) : wvalid (rainSky r) := by
  have h0 : ∀ i ∈ List.range' 3 17,
      0 ≤ ledAddress 0 (i : ℤ) ∧ ledAddress 0 (i : ℤ) < 128 := by decide
  have h1 : ∀ i ∈ List.range' 2 18,
      0 ≤ ledAddress 1 (i : ℤ) ∧ ledAddress 1 (i : ℤ) < 128 := by decide
  intro w hw
  unfold rainSky at hw
  rcases List.mem_append.1 hw with h | h
  · obtain ⟨i, hi, rfl⟩ := List.mem_map.1 h
    exact h0 i hi
  · obtain ⟨i, hi, rfl⟩ := List.mem_map.1 h
    exact h1 i hi

/-- `bg_firepit` only touches valid strip indices. -/
theorem bg_firepit_valid (r : FirepitRand) : wvalid (bg_firepit r) := by
  have hcore : ∀ level ∈ ([6, 5, 4, 3] : List ℕ),
      ∀ i ∈ List.range (17 + (6 - level)),
      0 ≤ ledAddress (level : ℤ) (i : ℤ) ∧ ledAddress (level : ℤ) (i : ℤ) < 128 := by
    decide
  intro w hw
  unfold bg_firepit at hw
  obtain ⟨level, hl, hw2⟩ := List.mem_flatMap.1 hw
  obtain ⟨i, hi, rfl⟩ := List.mem_map.1 hw2
  exact hcore level hl i hi

/-- Every write of the lightning-strike loop passed the `[0,128)` guard. -/
theorem strikeAux_writes (drift : ℕ → Fin 2) :
    ∀ (l : List ℕ) (x : ℤ) (pp : ℕ → ℤ), wvalid (strikeAux drift l x pp).2 := by
  intro l
  induction l with
  | nil =>
      intro x pp w hw
      simp [strikeAux] at hw
  | cons j rest ih =>
      intro x pp w hw
      unfold strikeAux at hw
      dsimp only at hw
      split at hw
      next hcond =>
        dsimp only at hw
        rcases List.mem_cons.1 hw with rfl | hmem
        · exact hcond
        · exact ih _ _ w hmem
      next hcond =>
        exact ih _ _ w hw

/-- The lightning-strike loop only stores strip indices that passed the
guard: entries of `prev_pos` in range stay in range. -/
theorem strikeAux_pp (drift : ℕ → Fin 2) :
    ∀ (l : List ℕ) (x : ℤ) (pp : ℕ → ℤ),
    (∀ k < 6, 0 ≤ pp k ∧ pp k < 128) →
    ∀ k < 6, 0 ≤ (strikeAux drift l x pp).1 k ∧ (strikeAux drift l x pp).1 k < 128 := by
  intro l
  induction l with
  | nil =>
      intro x pp h k hk
      simpa [strikeAux] using h k hk
  | cons j rest ih =>
      intro x pp h k hk
      unfold strikeAux
      dsimp only
      split
      next hcond =>
        dsimp only
        apply ih
        · intro k2 hk2
          rw [Function.update_apply]
          split_ifs with he
          · exact hcond
          · exact h k2 hk2
        · exact hk
      next hcond =>
        exact ih _ _ h k hk

/-- The clamp always lands in `[0, 20)`. -/
theorem clampCol_bounds (x : ℤ) : 0 ≤ clampCol x ∧ clampCol x < 20 := by
  unfold clampCol
  split_ifs with h
  · exact ⟨h.1, h.2⟩
  · omega

/-- The three-way raindrop branch: all its writes are in `[0,128)` provided
the slot's first six `prev_pos` entries are, and it keeps those entries in
`[0,128)`. -/
theorem rainStep1_valid (driftL : ℕ → Fin 2) (driftR : Fin 2) (d : Raindrop)
    (hpp : ∀ k < 6, 0 ≤ d.prev_pos k ∧ d.prev_pos k < 128) :
    wvalid (rainStep1 driftL driftR d).2 ∧
    (∀ k < 6, 0 ≤ (rainStep1 driftL driftR d).1.prev_pos k ∧
      (rainStep1 driftL driftR d).1.prev_pos k < 128) := by
  unfold rainStep1
  split
  · constructor
    · intro w hw
      exact strikeAux_writes driftL _ _ _ w hw
    · intro k hk
      exact strikeAux_pp driftL _ _ _ hpp k hk
  · split
    · constructor
      · intro w hw
        obtain ⟨j, hj, rfl⟩ := List.mem_map.1 hw
        exact hpp j (List.mem_range.1 hj)
      · exact hpp
    · have hxb := clampCol_bounds (d.prev_pos (d.stage - 1).toNat - ((driftR : ℕ) : ℤ))
      have hpp1 : ∀ k < 6,
          0 ≤ Function.update d.prev_pos d.stage.toNat
              (clampCol (d.prev_pos (d.stage - 1).toNat - ((driftR : ℕ) : ℤ))) k ∧
            Function.update d.prev_pos d.stage.toNat
              (clampCol (d.prev_pos (d.stage - 1).toNat - ((driftR : ℕ) : ℤ))) k < 128 := by
        intro k hk
        rw [Function.update_apply]
        split_ifs with he
        · omega
        · exact hpp k hk
      dsimp only
      split
      next hguard =>
        constructor
        · intro w hw
          rw [List.mem_singleton] at hw
          subst hw
          exact hguard
        · exact hpp1
      next hguard =>
        constructor
        · intro w hw
          simp at hw
        · exact hpp1

/-- One raindrop slot's advance: all writes in `[0,128)` and `prev_pos`
entries kept in `[0,128)`, provided they start there. -/
theorem rainAdvSlot_valid (driftL : ℕ → Fin 2) (driftR : Fin 2) (d : Raindrop)
    (hpp : ∀ k < 6, 0 ≤ d.prev_pos k ∧ d.prev_pos k < 128) :
    wvalid (rainAdvSlot driftL driftR d).2 ∧
    (∀ k < 6, 0 ≤ (rainAdvSlot driftL driftR d).1.prev_pos k ∧
      (rainAdvSlot driftL driftR d).1.prev_pos k < 128) := by
  obtain ⟨hS2, hS1⟩ := rainStep1_valid driftL driftR d hpp
  unfold rainAdvSlot
  split
  · dsimp only
    split
    next hc1 =>
      constructor
      · intro w hw
        rcases List.mem_append.1 hw with h | h
        · exact hS2 w h
        · obtain ⟨j, hj, rfl⟩ := List.mem_map.1 h
          exact hS1 j (List.mem_range.1 hj)
      · exact hS1
    next hc1 =>
      split
      next hc2 =>
        exact ⟨hS2, hS1⟩
      next hc2 =>
        exact ⟨hS2, hS1⟩
  · exact ⟨by intro w hw; simp at hw, hpp⟩

/-- The twinkle spawn phase preserves the pool invariant (the spawned
position comes from `random(NUM_LEDS)`). -/
theorem twSpawn_inv (pool : Fin 8 → Twinkle) (r : TwinkleRand)
    (h : TwInv pool) : TwInv (twSpawn pool r) := by
  intro i
  unfold twSpawn
  split
  · cases hff : firstFree (fun k => (pool k).pos) with
    | none => exact h i
    | some j =>
        dsimp only
        rcases eq_or_ne i j with rfl | hij
        · rw [Function.update_same]
          right
          have := r.pos.isLt
          dsimp only
          constructor
          · positivity
          · exact_mod_cast this
        · simp only [Function.update_apply, if_neg hij]
          exact h i
  · exact h i

/-- One twinkle call preserves the pool invariant. -/
theorem bg_twinkle_inv (pool : Fin 8 → Twinkle) (r : TwinkleRand)
    (h : TwInv pool) : TwInv (bg_twinkle pool r).1 := by
  have h1 := twSpawn_inv pool r h
  intro i
  have hdef : (bg_twinkle pool r).1 i = (twAdvSlot (twSpawn pool r i)).1 := rfl
  rw [hdef]
  unfold twAdvSlot
  split
  next hcond =>
    dsimp only
    split_ifs with hz
    · left
      rfl
    · rcases h1 i with hfree | hb
      · exact absurd hfree hcond.1
      · right
        exact hb
  next hcond =>
    exact h1 i

/-- All writes of one twinkle call are in `[0,128)`. -/
theorem bg_twinkle_valid (pool : Fin 8 → Twinkle) (r : TwinkleRand)
    (h : TwInv pool) : wvalid (bg_twinkle pool r).2 := by
  have h1 := twSpawn_inv pool r h
  intro w hw
  unfold bg_twinkle at hw
  obtain ⟨i, _, hwi⟩ := List.mem_flatMap.1 hw
  unfold twAdvSlot at hwi
  split at hwi
  next hcond =>
    dsimp only at hwi
    rw [List.mem_singleton] at hwi
    subst hwi
    rcases h1 i with hfree | hb
    · exact absurd hfree hcond.1
    · exact hb
  next hcond =>
    simp at hwi

/-- The firework spawn phase preserves the pool invariant (attributes come
from `random8(3,14)`, `random8(0,2)`, `random8()`, `random8(0,2)`). -/
theorem fwSpawn_inv (pool : Fin 5 → Firework) (r : FireworkRand)
    (h : FwInv pool) : FwInv (fwSpawn pool r) := by
  intro i
  unfold fwSpawn
  split
  · cases hff : firstFree (fun k => (pool k).pos) with
    | none => exact h i
    | some j =>
        dsimp only
        rcases eq_or_ne i j with rfl | hij
        · rw [Function.update_same]
          right
          have hp := r.pos.isLt
          have hd := r.dir.isLt
          have hh := r.ho.isLt
          dsimp only
          omega
        · simp only [Function.update_apply, if_neg hij]
          exact h i
  · exact h i

/-- One firework call preserves the pool invariant. -/
theorem bg_firework_inv (pool : Fin 5 → Firework) (r : FireworkRand)
    (h : FwInv pool) : FwInv (bg_firework pool r).1 := by
  have h1 := fwSpawn_inv pool r h
  intro i
  have hdef : (bg_firework pool r).1 i = (fwAdvSlot (fwSpawn pool r i)).1 := rfl
  rw [hdef]
  unfold fwAdvSlot
  split
  next hcond =>
    dsimp only
    split_ifs with hz
    · left
      rfl
    · rcases h1 i with hfree | hb
      · exact absurd hfree hcond.1
      · right
        obtain ⟨b1, b2, ⟨b3, b4⟩, ⟨b5, b6⟩, b7, b8⟩ := hb
        have := hcond.2
        refine ⟨b1, b2, ⟨b3, b4⟩, ⟨b5, b6⟩, ?_, ?_⟩ <;> omega
  next hcond =>
    exact h1 i

/-- The staged choreography's write indices do not depend on the shell's hue
byte. -/
theorem fwSlotWrites_map_fst (f : Firework) :
    (fwSlotWrites f).map Prod.fst =
      (fwSlotWrites
        (Firework.mk f.pos f.direction f.stage 0 f.height_offset)).map Prod.fst := by
  rcases f with ⟨pos, dir, stage, hue, ho⟩
  unfold fwSlotWrites
  dsimp only
  split_ifs <;> rfl

/-- Exhaustive check: for every spawnable attribute combination and stage
1–24, every choreography index is a valid strip index (never the 999
sentinel, never out of range). -/
theorem fwSlotWrites_core : ∀ (pn : ℕ), pn < 11 → ∀ (dn : ℕ), dn < 2 →
    ∀ (hn : ℕ), hn < 2 → ∀ (sn : ℕ), sn < 24 →
    ∀ w ∈ fwSlotWrites
      (Firework.mk (3 + ((pn : ℕ) : ℤ)) (((dn : ℕ) : ℤ)) (1 + ((sn : ℕ) : ℤ)) 0
        (((hn : ℕ) : ℤ))),
      0 ≤ w.1 ∧ w.1 < 128 := by
  decide

/-- All writes of one firework call are in `[0,128)`. -/
theorem bg_firework_valid (pool : Fin 5 → Firework) (r : FireworkRand)
    (h : FwInv pool) : wvalid (bg_firework pool r).2 := by
  have h1 := fwSpawn_inv pool r h
  intro w hw
  unfold bg_firework at hw
  obtain ⟨i, _, hwi⟩ := List.mem_flatMap.1 hw
  unfold fwAdvSlot at hwi
  split at hwi
  next hcond =>
    dsimp only at hwi
    rcases h1 i with hfree | hb
    · exact absurd hfree hcond.1
    · obtain ⟨b1, b2, ⟨b3, b4⟩, ⟨b5, b6⟩, b7, b8⟩ := hb
      have hst := hcond.2
      set f := fwSpawn pool r i with hf
      have hmem : w.1 ∈ (fwSlotWrites f).map Prod.fst := List.mem_map_of_mem _ hwi
      rw [fwSlotWrites_map_fst] at hmem
      have e1 : f.pos = 3 + (((f.pos - 3).toNat : ℕ) : ℤ) := by omega
      have e2 : f.direction = ((f.direction.toNat : ℕ) : ℤ) := by omega
      have e3 : f.stage = 1 + (((f.stage - 1).toNat : ℕ) : ℤ) := by omega
      have e4 : f.height_offset = ((f.height_offset.toNat : ℕ) : ℤ) := by omega
      rw [e1, e2, e3, e4] at hmem
      obtain ⟨w', hw', he⟩ := List.mem_map.1 hmem
      have hb' := fwSlotWrites_core (f.pos - 3).toNat (by omega)
        f.direction.toNat (by omega) f.height_offset.toNat (by omega)
        (f.stage - 1).toNat (by omega) w' hw'
      rw [he] at hb'
      exact hb'
  next hcond =>
    simp at hwi

/-- The raindrop spawn phase preserves the `prev_pos` invariant (it records
the spawn column `3 + random8-draw ∈ [3,20]` in entry 0). -/
theorem rainSpawn_inv (pool : Fin 16 → Raindrop) (r : RainRand)
    (h : RainInv pool) : RainInv (rainSpawn pool r) := by
  intro i
  unfold rainSpawn
  split
  · cases hff : firstFree (fun k => (pool k).pos) with
    | none => exact h i
    | some j =>
        dsimp only
        rcases eq_or_ne i j with rfl | hij
        · rw [Function.update_same]
          intro k hk
          dsimp only
          rw [Function.update_apply]
          split_ifs with hk0
          · have := r.spawnPos.isLt
            constructor <;> omega
          · exact h i k hk
        · simp only [Function.update_apply, if_neg hij]
          exact h i
  · exact h i

/-- One `bg_rain` call preserves the `prev_pos` invariant. -/
theorem bg_rain_inv (pool : Fin 16 → Raindrop) (r : RainRand)
    (h : RainInv pool) : RainInv (bg_rain pool r).1 := by
  have h1 := rainSpawn_inv pool r h
  intro i
  have hdef : (bg_rain pool r).1 i =
      (rainAdvSlot (r.drift i) (r.rainDrift i) (rainSpawn pool r i)).1 := rfl
  rw [hdef]
  exact (rainAdvSlot_valid _ _ _ (h1 i)).2

/-- All writes of one `bg_rain` call are in `[0,128)`, provided every slot's
stored `prev_pos` entries are. -/
theorem bg_rain_valid (pool : Fin 16 → Raindrop) (r : RainRand)
    (h : RainInv pool) : wvalid (bg_rain pool r).2 := by
  have h1 := rainSpawn_inv pool r h
  intro w hw
  unfold bg_rain at hw
  rcases List.mem_append.1 hw with hs | hf
  · exact rainSky_valid r w hs
  · obtain ⟨i, _, hwi⟩ := List.mem_flatMap.1 hf
    exact (rainAdvSlot_valid _ _ _ (h1 i)).1 w hwi

/-- Every reachable twinkle pool satisfies the position invariant. -/
theorem TwReach_inv {p : Fin 8 → Twinkle} (h : TwReach p) : TwInv p := by
  induction h with
  | init =>
      intro i
      left
      rfl
  | step h r ih => exact bg_twinkle_inv _ r ih

/-- Every reachable firework pool satisfies the attribute invariant. -/
theorem FwReach_inv {p : Fin 5 → Firework} (h : FwReach p) : FwInv p := by
  induction h with
  | init =>
      intro i
      left
      rfl
  | step h r ih => exact bg_firework_inv _ r ih

/-- Every raindrop pool reachable from in-range `prev_pos` memory satisfies
the `prev_pos` invariant. -/
theorem RainReach_inv {g : ℕ → ℕ → ℤ} {p : Fin 16 → Raindrop}
    (hg : ∀ i j, j < 6 → 0 ≤ g i j ∧ g i j < 128) (h : RainReach g p) :
    RainInv p := by
  induction h with
  | init =>
      intro i k hk
      exact hg (i : ℕ) k hk
  | step h r ih => exact bg_rain_inv _ r ih

/-- C1 (amended): every buffer write of the twinkle, firework and firepit
background algorithms, from any reachable pool state and any random draws,
has index in `[0,128)` — sentinel (999) lattice cells and out-of-range
indices are never written.  The same holds for the thunderstorm (rain)
algorithm provided every stored `prev_pos` entry began in `[0,128)` (e.g.
zero-initialised memory); the counterexample shows the unconditional claim
fails because the lightning hold/clear stages replay `prev_pos` entries that
the guarded strike stage skipped and left at their indeterminate initial
values. -/
theorem bg_writes_in_bounds :
    (∀ p, TwReach p → ∀ r, wvalid (bg_twinkle p r).2) ∧
    (∀ p, FwReach p → ∀ r, wvalid (bg_firework p r).2) ∧
    (∀ r, wvalid (bg_firepit r)) ∧
    (∀ g, (∀ i j, j < 6 → 0 ≤ g i j ∧ g i j < 128) →
      ∀ p, RainReach g p → ∀ r, wvalid (bg_rain p r).2) := by
  refine ⟨?_, ?_, bg_firepit_valid, ?_⟩
  · intro p hp r
    exact bg_twinkle_valid p r (TwReach_inv hp)
  · intro p hp r
    exact bg_firework_valid p r (FwReach_inv hp)
  · intro g hg p hp r
    exact bg_rain_valid p r (RainReach_inv hg hp)

/-- C1 witness: the twinkle write at strip index 5 emitted by the second
frame after spawning at position 5 is in bounds. -/
theorem bg_writes_in_bounds_witness : 0 ≤ (5 : ℤ) ∧ (5 : ℤ) < 128 :=
  bg_writes_in_bounds.1 _ (TwReach.step TwReach.init twSpawnR5) twR0
    ((5 : ℤ), Color.rgb 120 120 120) (by decide)

/-- C1 counterexample to the claim as stated: from a freshly constructed
raindrop pool whose uninitialised `prev_pos[1]` happened to hold 999, one
reachable frame (lightning drop spawned at column 20, zero drift — the strike
guard rejects the sentinel cells of rows 1 and 2 and leaves `prev_pos[1]`
untouched) is followed by a frame whose lightning-hold stage writes the
pixel buffer at index 999, which is not in `[0,128)`. -/
theorem bg_writes_in_bounds_counterexample :
    RainReach badG cexPool1 ∧
    ((999 : ℤ), yellow) ∈ (bg_rain cexPool1 cexR2).2 ∧
    ¬ (0 ≤ (999 : ℤ) ∧ (999 : ℤ) < 128) :=
  ⟨RainReach.step RainReach.init cexR1, by decide, by decide⟩

end PLedDisp
